import Mathlib

/-!
Shallow embedding of `quickpin_api/qpi.py` (QuickPin API client wrapper),
together with theorems checking the natural-language specification against it.

Machine integers do not occur (Python integers are unbounded); statuses,
page numbers and sizes are `Nat`.  HTTP traffic is modelled by explicit
responder functions passed to the embedded operations, and each operation
returns the requests it issued (as a trace of events) so that ordering
properties can be stated.
-/

namespace QuickpinApi

/-- Errors raised by the client.
`httpError` models `requests.exceptions.HTTPError` (from `raise_for_status`),
`qpiError` models `QPIError(message)`, and `typeError` models a Python
`TypeError` (indexing a `list` with a `str`). -/
inductive Err where
  | httpError (status : Nat)
  | qpiError (message : String)
  | typeError
deriving Repr, DecidableEq

/-- A profile record as built by `submit_usernames` / `submit_user_ids`:
a dict with an optional `username` key, an optional `upstream_id` key,
a `site` and a `labels` list. -/
structure ProfileRecord where
  username : Option String := none
  upstream_id : Option String := none
  site : String
  labels : List String
deriving Repr, DecidableEq

/-- `requests.Response.raise_for_status()` raises `HTTPError` exactly for
status codes in 400..599 (client and server errors); other codes, 2xx and
3xx alike, do not raise. -/
def raiseForStatus (status : Nat) : Bool :=
  decide (400 ≤ status) && decide (status < 600)

/-! ### Python iteration helpers used by `submit_profiles` -/

/-- Number of elements of Python `range(start, stop, step)` for `step ≥ 1`. -/
def pyRangeCount (start stop step : Nat) : Nat :=
  if start < stop then (stop - start + step - 1) / step else 0

/-- Python `range(start, stop, step)` for `step ≥ 1`
(`range(0, 0, 0)` raises `ValueError` in Python; the embedding is only
used with `step ≥ 1`, as every claim hypothesises `chunk_size ≥ 1`). -/
def pyRange (start stop step : Nat) : List Nat :=
  List.range' start (pyRangeCount start stop step) step

/-- Python slice `l[a:b]` for natural `a ≤ b`. -/
def pySlice (l : List α) (a b : Nat) : List α :=
  (l.drop a).take (b - a)

/-- The chunks taken by the loop
`for chunk_start in range(0, len(profiles), chunk_size):
   chunk = profiles[chunk_start:chunk_start + chunk_size]`
of `QPI.submit_profiles`. -/
def submitChunks (profiles : List α) (chunk_size : Nat) : List (List α) :=
  (pyRange 0 profiles.length chunk_size).map
    fun chunk_start => pySlice profiles chunk_start (chunk_start + chunk_size)

/-! ### The client object -/

/-- Python `str.rstrip('/')`. -/
def rstripSlash (s : String) : String :=
  s.dropRightWhile (· = '/')

/-- Python `str.strip()`: remove leading and trailing whitespace.
Implemented on the character list so proofs and witnesses can evaluate it. -/
def pyStrip (s : String) : String :=
  ⟨((s.data.dropWhile Char.isWhitespace).reverse.dropWhile Char.isWhitespace).reverse⟩

/-- Split a character list on a separator character; Python `str.split(sep)`
semantics (`''.split(sep) == ['']`). -/
def splitOnChar (sep : Char) : List Char → List (List Char)
  | [] => [[]]
  | c :: cs =>
    match splitOnChar sep cs with
    | [] => [[]]
    | g :: gs => if c = sep then [] :: g :: gs else (c :: g) :: gs

/-- Python `str.split(',')`. -/
def pySplitComma (s : String) : List String :=
  (splitOnChar ',' s.data).map fun cs => ⟨cs⟩

/-- The `&`-separated components of a query string. -/
def queryComponents (s : String) : List String :=
  (splitOnChar '&' s.data).map fun cs => ⟨cs⟩

/-- The state of a `QPI` object after `__init__` finished.
`headers` holds the HTTP headers dict; no method of the class assigns to
`self.token`, `self.headers` or `self.authenticated` after `__init__`,
so the embedded operations take the client and leave it unchanged. -/
structure Client where
  app_url : String
  username : Option String
  password : Option String
  auth_url : String
  profile_url : String
  search_url : String
  notification_url : String
  headers : List (String × String)
  token : String
  authenticated : Bool
deriving Repr, DecidableEq

/-- The client built by the tail of `QPI.__init__` once the final token is
known: `self.app_url = app_url.rstrip('/')`, the four endpoint URLs are
derived from the raw `app_url` argument, `self.headers['X-Auth'] = self.token`
and `self.authenticated = True`. -/
def mkClient (app_url : String) (username password : Option String)
    (tok : String) : Client :=
  { app_url := rstripSlash app_url
    username := username
    password := password
    auth_url := app_url ++ "/api/authentication/"
    profile_url := app_url ++ "/api/profile/"
    search_url := app_url ++ "/api/search/"
    notification_url := app_url ++ "/api/notification/"
    headers := [("X-Auth", tok)]
    token := tok
    authenticated := true }

/-! ### Authentication -/

/-- A response to the authentication POST: HTTP status plus the parsed JSON
body, a dict of fields (the QuickPin authentication endpoint returns an
object with string fields, in particular `token`). -/
structure AuthResponse where
  status : Nat
  body : List (String × String)
deriving Repr, DecidableEq

/-- `QPI.get_token` applied to the response of
`requests.post(self.auth_url, json=payload)`:
`response.raise_for_status()`, then `response.json()['token']`; a `KeyError`
is turned into `QPIError('Authentication failed.')`. -/
def get_token (resp : AuthResponse) : Except Err String :=
  if raiseForStatus resp.status then .error (.httpError resp.status)
  else
    match resp.body.lookup "token" with
    | some t => .ok t
    | none => .error (.qpiError "Authentication failed.")

/-- Result of `QPI.__init__`: how many network requests were issued
(the credential exchange is the only possible one) and either the
constructed client or the raised error. -/
structure InitResult where
  networkCalls : Nat
  result : Except Err Client
deriving Repr

/-- `QPI.__init__`.  `authServer` models the authentication endpoint:
it maps the posted `(email, password)` payload to the server's response.
The branch structure follows the source: if `token is None or token == ''`,
credentials are required (`QPIError` if `username is None or password is
None`, otherwise one POST to the authentication endpoint via `get_token`);
otherwise the given token is used directly with no network call. -/
def qpiInit (app_url : String) (token username password : Option String)
    (authServer : String → String → AuthResponse) : InitResult :=
  if token = none ∨ token = some "" then
    match username, password with
    | some u, some p =>
      match get_token (authServer u p) with
      | .ok t => ⟨1, .ok (mkClient app_url username password t)⟩
      | .error e => ⟨1, .error e⟩
    | _, _ => ⟨0, .error (.qpiError "Supply `token`, or `username` and `password`")⟩
  else
    ⟨0, .ok (mkClient app_url username password (token.getD ""))⟩

/-! ### Chunked profile submission (`QPI.submit_profiles`) -/

/-- One POST issued by `submit_profiles`: target URL, headers, and the JSON
payload `{'profiles': chunk, 'stub': stub}`. -/
structure PostReq where
  url : String
  headers : List (String × String)
  profiles : List ProfileRecord
  stub : Bool
deriving Repr, DecidableEq

/-- An HTTP response to a profile-submission POST: status and body text. -/
structure HttpResponse where
  status : Nat
  content : String
deriving Repr, DecidableEq

/-- Observable events of a `submit_profiles` run, tagged with the index of
the chunk being processed: issuing the POST, receiving its response,
yielding `response.content` to the caller, and `time.sleep(interval)`. -/
inductive Ev where
  | post (chunkIdx : Nat) (req : PostReq)
  | recv (chunkIdx : Nat) (status : Nat)
  | yielded (chunkIdx : Nat) (content : String)
  | slept (chunkIdx : Nat) (seconds : Nat)
deriving Repr, DecidableEq

/-- Outcome of (fully consuming) the `submit_profiles` generator:
the event trace, the yielded response bodies in order, and the error that
ended the run early, if any. -/
structure RunResult where
  trace : List Ev
  results : List String
  error : Option Err
deriving Repr, DecidableEq

/-- The request posted for one chunk:
`requests.post(self.profile_url, headers=self.headers, json=payload)`. -/
def mkPostReq (c : Client) (chunk : List ProfileRecord) (stub : Bool) : PostReq :=
  ⟨c.profile_url, c.headers, chunk, stub⟩

/-- The loop body of `submit_profiles`, processing the chunks in order.
`responder i` is the server's response to the `i`-th POST (the requests are
strictly sequential, so indexing responses by chunk index is faithful).
For each chunk: POST, receive, `raise_for_status` (abort on 4xx/5xx), yield
`response.content`, then `time.sleep(interval)`. -/
def runChunksFrom (c : Client) (stub : Bool) (interval : Nat)
    (responder : Nat → HttpResponse) :
    Nat → List (List ProfileRecord) → RunResult
  | _, [] => ⟨[], [], none⟩
  | i, chunk :: rest =>
    let resp := responder i
    if raiseForStatus resp.status then
      ⟨[.post i (mkPostReq c chunk stub), .recv i resp.status], [],
        some (.httpError resp.status)⟩
    else
      let r := runChunksFrom c stub interval responder (i + 1) rest
      ⟨.post i (mkPostReq c chunk stub) :: .recv i resp.status ::
          .yielded i resp.content :: .slept i interval :: r.trace,
        resp.content :: r.results, r.error⟩

/-- `QPI.submit_profiles`, fully consumed: check `self.authenticated`,
then run the chunk loop over `submitChunks profiles chunk_size`. -/
def submitProfilesRun (c : Client) (profiles : List ProfileRecord) (stub : Bool)
    (chunk_size interval : Nat) (responder : Nat → HttpResponse) : RunResult :=
  if c.authenticated then
    runChunksFrom c stub interval responder 0 (submitChunks profiles chunk_size)
  else
    ⟨[], [], some (.qpiError "Please authenticate first.")⟩

/-- The payloads of the POST events of a trace, in order. -/
def postPayloads (t : List Ev) : List (List ProfileRecord) :=
  t.filterMap fun e =>
    match e with
    | .post _ r => some r.profiles
    | _ => none

/-! ### Profile construction in `submit_usernames` / `submit_user_ids`

In the source the loop variable `labels` starts as the caller's dict but is
reassigned inside the loop (`labels = labels[username]` / `labels = []`), so
from the second iteration on it is a `list`, and the `in` test as well as the
indexing operate on that list.  The embedding keeps the dict/list distinction
to stay faithful to this. -/

/-- The value of the Python variable `labels` during the loop:
either still the caller's dict or a list it was reassigned to. -/
inductive PyLabels where
  | dict (m : List (String × List String))
  | list (l : List String)
deriving Repr, DecidableEq

/-- Python `x in labels`: key membership for a dict, element membership for
a list. -/
def pyContains (labels : PyLabels) (x : String) : Bool :=
  match labels with
  | .dict m => (m.lookup x).isSome
  | .list l => l.contains x

/-- Python `labels[x]` with `x` a `str`: dict lookup (`KeyError` when the key
is missing, unreachable here because the source guards with `in`), and a
`TypeError` when `labels` is a list. -/
def pyGetItem (labels : PyLabels) (x : String) : Except Err (List String) :=
  match labels with
  | .dict m =>
    match m.lookup x with
    | some v => .ok v
    | none => .error (.qpiError "KeyError")
  | .list _ => .error .typeError

/-- The profile-building loop of `QPI.submit_usernames`:
`if username in labels: labels = labels[username] else: labels = []`, then
append `{'username': username, 'site': site, 'labels': labels}`. -/
def buildUsernameProfiles (site : String) :
    List String → PyLabels → Except Err (List ProfileRecord)
  | [], _ => .ok []
  | u :: rest, labels =>
    let looked : Except Err (List String) :=
      if pyContains labels u then pyGetItem labels u else .ok []
    match looked with
    | .error e => .error e
    | .ok l =>
      match buildUsernameProfiles site rest (.list l) with
      | .error e => .error e
      | .ok ps => .ok ({ username := some u, site := site, labels := l } :: ps)

/-- The profiles list built by `QPI.submit_usernames(usernames, site,
labels=labels)` before it calls `submit_profiles`. -/
def submitUsernamesProfiles (usernames : List String) (site : String)
    (labels : List (String × List String)) : Except Err (List ProfileRecord) :=
  buildUsernameProfiles site usernames (.dict labels)

/-- The profile-building loop of `QPI.submit_user_ids`, identical to the
username one except the record key is `upstream_id`. -/
def buildUserIdProfiles (site : String) :
    List String → PyLabels → Except Err (List ProfileRecord)
  | [], _ => .ok []
  | u :: rest, labels =>
    let looked : Except Err (List String) :=
      if pyContains labels u then pyGetItem labels u else .ok []
    match looked with
    | .error e => .error e
    | .ok l =>
      match buildUserIdProfiles site rest (.list l) with
      | .error e => .error e
      | .ok ps => .ok ({ upstream_id := some u, site := site, labels := l } :: ps)

/-- The profiles list built by `QPI.submit_user_ids(user_ids, site,
labels=labels)` before it calls `submit_profiles`. -/
def submitUserIdsProfiles (user_ids : List String) (site : String)
    (labels : List (String × List String)) : Except Err (List ProfileRecord) :=
  buildUserIdProfiles site user_ids (.dict labels)

/-! ### `QPI.get` and `QPI.search` -/

/-- Abstraction of `urllib.parse.urljoin(self.app_url, resource)`; no claim
depends on URL arithmetic, only on which headers and parameters a request
carries. -/
def urljoin (base resource : String) : String :=
  base ++ resource

/-- The GET issued by `QPI.get`: URL, headers, and the params dict
`{'rpp': rpp, 'page': page}`. -/
structure GetReq where
  url : String
  headers : List (String × String)
  rpp : Nat
  page : Nat
deriving Repr, DecidableEq

/-- `QPI.get(resource, page, rpp)` up to the point the GET is issued. -/
def getRequest (c : Client) (resource : String) (page rpp : Nat) :
    Except Err GetReq :=
  if c.authenticated then
    .ok ⟨urljoin c.app_url resource, c.headers, rpp, page⟩
  else .error (.qpiError "Please authenticate first.")

/-- The params dict built by `QPI.search`: `query`, `rpp` and `page` always,
then `type`, `facets`, `sort` each added only when the corresponding argument
is not `None` (Python dicts preserve this insertion order). -/
def searchParams (query : String) (type_ facets sort : Option String)
    (rpp page : Nat) : List (String × String) :=
  [("query", query), ("rpp", toString rpp), ("page", toString page)]
    ++ (match type_ with | some t => [("type", t)] | none => [])
    ++ (match facets with | some f => [("facets", f)] | none => [])
    ++ (match sort with | some s => [("sort", s)] | none => [])

/-- `param_str = "&".join("%s=%s" % (k, v) for k, v in params.items())`. -/
def searchParamStr (query : String) (type_ facets sort : Option String)
    (rpp page : Nat) : String :=
  String.intercalate "&"
    ((searchParams query type_ facets sort rpp page).map
      fun kv => kv.1 ++ "=" ++ kv.2)

/-- The GET issued by `QPI.search`: URL, headers, and the query string. -/
structure SearchReq where
  url : String
  headers : List (String × String)
  paramStr : String
deriving Repr, DecidableEq

/-- `QPI.search(query, type_, facets, rpp, page, sort)` up to the point the
GET is issued. -/
def searchRequest (c : Client) (query : String) (type_ facets sort : Option String)
    (rpp page : Nat) : Except Err SearchReq :=
  if c.authenticated then
    .ok ⟨c.search_url, c.headers, searchParamStr query type_ facets sort rpp page⟩
  else .error (.qpiError "Please authenticate first.")

/-- The SSE connection opened by `QPI.yield_notifications`:
`SSEClient(self.notification_url, headers=self.headers)`. -/
structure SseReq where
  url : String
  headers : List (String × String)
deriving Repr, DecidableEq

/-- `QPI.yield_notifications` up to the point the SSE stream is opened. -/
def notificationRequest (c : Client) : Except Err SseReq :=
  if c.authenticated then .ok ⟨c.notification_url, c.headers⟩
  else .error (.qpiError "Please authenticate first.")

/-! ### The CLI submit pipeline (`submit_names` / `submit_ids`) -/

/-- Python dict assignment `m[k] = v`: replace the value when the key is
present, otherwise append the binding. -/
def dictInsert : List (String × α) → String → α → List (String × α)
  | [], k, v => [(k, v)]
  | (k', v') :: rest, k, v =>
    if k' = k then (k, v) :: rest else (k', v') :: dictInsert rest k v

/-- Models `list(set(xs))` for a list of strings: the distinct elements
(`set` iteration order is unspecified in Python; no claim depends on the
order of a label list, only on its elements). -/
def pyDedup (xs : List String) : List String :=
  xs.eraseDups

/-- Result of the CSV-parsing loop shared by `submit_names` and
`submit_ids`: the collected identifiers (in order, duplicates kept) and the
labels dict. -/
structure ParsedInput where
  idents : List String
  labels : List (String × List String)
deriving Repr, DecidableEq

/-- The parsing loop: for each CSV row, `row[0].strip()` (skip the row on
`IndexError`, i.e. an empty row, and when the stripped identifier is empty);
labels come from `row[1].split(',')` stripped and deduplicated, defaulting to
`[]` when there is no second column. -/
def parseIdentRowsAux :
    List (List String) → List String → List (String × List String) → ParsedInput
  | [], idents, labels => ⟨idents, labels⟩
  | row :: rest, idents, labels =>
    match row.head? with
    | none => parseIdentRowsAux rest idents labels
    | some first =>
      let ident := pyStrip first
      if ident = "" then parseIdentRowsAux rest idents labels
      else
        let profile_labels :=
          match row.get? 1 with
          | none => []
          | some second => pyDedup ((pySplitComma second).map pyStrip)
        parseIdentRowsAux rest (idents ++ [ident]) (dictInsert labels ident profile_labels)

/-- The parsing loop of `submit_names` / `submit_ids` over the CSV rows of
the input file. -/
def parseIdentRows (rows : List (List String)) : ParsedInput :=
  parseIdentRowsAux rows [] []

/-- Outcome of a CLI submit command: `emptyFile` means it echoed
`'Empty file'` and called `sys.exit()` (a clean exit) before any submission;
`buildError` means profile construction raised; `ran` carries the submission
run. -/
inductive PipelineResult where
  | emptyFile
  | buildError (e : Err)
  | ran (r : RunResult)
deriving Repr, DecidableEq

/-- The `submit_names` command after the client has been constructed:
parse the rows, exit on an empty identifier list, otherwise submit via
`submit_usernames` (fully consuming the generator, as the progress-bar loop
does). -/
def submitNamesPipeline (c : Client) (rows : List (List String)) (site : String)
    (stub : Bool) (chunk interval : Nat) (responder : Nat → HttpResponse) :
    PipelineResult :=
  let parsed := parseIdentRows rows
  if parsed.idents = [] then .emptyFile
  else
    match submitUsernamesProfiles parsed.idents site parsed.labels with
    | .error e => .buildError e
    | .ok ps => .ran (submitProfilesRun c ps stub chunk interval responder)

/-- The `submit_ids` command after the client has been constructed,
analogous to `submitNamesPipeline`. -/
def submitIdsPipeline (c : Client) (rows : List (List String)) (site : String)
    (stub : Bool) (chunk interval : Nat) (responder : Nat → HttpResponse) :
    PipelineResult :=
  let parsed := parseIdentRows rows
  if parsed.idents = [] then .emptyFile
  else
    match submitUserIdsProfiles parsed.idents site parsed.labels with
    | .error e => .buildError e
    | .ok ps => .ran (submitProfilesRun c ps stub chunk interval responder)

/-- Number of profile POSTs a CLI run issued. -/
def pipelinePostCount : PipelineResult → Nat
  | .emptyFile => 0
  | .buildError _ => 0
  | .ran r => (postPayloads r.trace).length

/-! ### Concrete inputs used by witnesses and counterexamples -/

/-- A client as produced by `QPI(app_url, token='tok')`. -/
def demoClient : Client := mkClient "https://example.com" none none "tok"

/-- A twitter profile record with the given username and no labels. -/
def demoProfile (n : String) : ProfileRecord :=
  { username := some n, site := "twitter", labels := [] }

/-- Five demo records, enough to exercise a partial final chunk. -/
def demoProfiles : List ProfileRecord :=
  [demoProfile "a", demoProfile "b", demoProfile "c", demoProfile "d", demoProfile "e"]

/-- A server that accepts every submission with status 200. -/
def demoResponderOk : Nat → HttpResponse := fun i => ⟨200, toString i⟩

/-! ## Lemmas about the chunking -/

theorem submitChunks_nil (k : Nat) : submitChunks ([] : List α) k = [] := rfl

/-- Unfolding of the chunk loop: for a nonempty list the chunks are the first
`k` elements followed by the chunks of the remainder. -/
theorem submitChunks_cons {l : List α} {k : Nat} (hk : 1 ≤ k) (hne : l ≠ []) :
    submitChunks l k = l.take k :: submitChunks (l.drop k) k := by
  have hn : 0 < l.length := List.length_pos.mpr hne
  have hcount : pyRangeCount 0 l.length k = (l.length - 1) / k + 1 := by
    unfold pyRangeCount
    rw [if_pos hn]
    have h1 : l.length - 0 + k - 1 = l.length - 1 + k := by omega
    rw [h1, Nat.add_div_right _ hk]
  have hcount' : pyRangeCount 0 (l.drop k).length k = (l.length - 1) / k := by
    rw [List.length_drop]
    unfold pyRangeCount
    by_cases hlk : k < l.length
    · rw [if_pos (by omega)]
      have h2 : l.length - k - 0 + k - 1 = l.length - 1 := by omega
      rw [h2]
    · rw [if_neg (by omega)]
      symm
      exact Nat.div_eq_of_lt (by omega)
  unfold submitChunks pyRange
  rw [hcount, hcount', List.range'_succ]
  rw [List.map_cons]
  congr 1
  · simp [pySlice]
  · have hr := List.map_add_range' k 0 ((l.length - 1) / k) k
    rw [Nat.add_zero] at hr
    rw [Nat.zero_add, ← hr, List.map_map]
    have hfun : ((fun s => pySlice l s (s + k)) ∘ (k + ·)) =
        fun s => pySlice (l.drop k) s (s + k) := by
      funext s
      show pySlice l (k + s) (k + s + k) = pySlice (l.drop k) s (s + k)
      unfold pySlice
      rw [List.drop_drop]
      congr 1
      omega
    rw [hfun]

/-- The number of chunks is `⌈n / k⌉`. -/
theorem submitChunks_length (l : List α) (k : Nat) (hk : 1 ≤ k) :
    (submitChunks l k).length = (l.length + k - 1) / k := by
  unfold submitChunks pyRange
  rw [List.length_map, List.length_range']
  unfold pyRangeCount
  by_cases hn : 0 < l.length
  · rw [if_pos hn, Nat.sub_zero]
  · rw [if_neg hn]
    have h0 : l.length = 0 := by omega
    rw [h0]
    symm
    exact Nat.div_eq_of_lt (by omega)

/-- Concatenating the chunks in order gives back the original list. -/
theorem submitChunks_flatten (k : Nat) (hk : 1 ≤ k) :
    ∀ l : List α, (submitChunks l k).flatten = l := by
  have H : ∀ n, ∀ l : List α, l.length = n → (submitChunks l k).flatten = l := by
    intro n
    induction n using Nat.strong_induction_on with
    | _ n ih =>
      intro l hn
      by_cases hne : l = []
      · subst hne; rfl
      · rw [submitChunks_cons hk hne, List.flatten_cons]
        have hlt : (l.drop k).length < n := by
          rw [List.length_drop]
          subst hn
          exact Nat.sub_lt (List.length_pos.mpr hne) hk
        rw [ih _ hlt _ rfl, List.take_append_drop]
  exact fun l => H l.length l rfl

/-- Every chunk is nonempty and at most `k` long. -/
theorem submitChunks_mem_length (k : Nat) (hk : 1 ≤ k) :
    ∀ l : List α, ∀ c ∈ submitChunks l k, 0 < c.length ∧ c.length ≤ k := by
  have H : ∀ n, ∀ l : List α, l.length = n →
      ∀ c ∈ submitChunks l k, 0 < c.length ∧ c.length ≤ k := by
    intro n
    induction n using Nat.strong_induction_on with
    | _ n ih =>
      intro l hn c hc
      by_cases hne : l = []
      · subst hne; simp [submitChunks_nil] at hc
      · rw [submitChunks_cons hk hne] at hc
        rcases List.mem_cons.mp hc with hc | hc
        · subst hc
          have hn0 : 0 < l.length := List.length_pos.mpr hne
          rw [List.length_take]
          omega
        · have hlt : (l.drop k).length < n := by
            rw [List.length_drop]
            subst hn
            exact Nat.sub_lt (List.length_pos.mpr hne) hk
          exact ih _ hlt _ rfl c hc
  exact fun l => H l.length l rfl

/-- Every chunk except possibly the last has length exactly `k`. -/
theorem submitChunks_full (k : Nat) (hk : 1 ≤ k) :
    ∀ l : List α, ∀ i c, (submitChunks l k)[i]? = some c →
      i + 1 < (submitChunks l k).length → c.length = k := by
  have H : ∀ n, ∀ l : List α, l.length = n → ∀ i c, (submitChunks l k)[i]? = some c →
      i + 1 < (submitChunks l k).length → c.length = k := by
    intro n
    induction n using Nat.strong_induction_on with
    | _ n ih =>
      intro l hn i c hget hlen
      by_cases hne : l = []
      · subst hne; simp [submitChunks_nil] at hget
      · have hlt : (l.drop k).length < n := by
          rw [List.length_drop]
          subst hn
          exact Nat.sub_lt (List.length_pos.mpr hne) hk
        rw [submitChunks_cons hk hne] at hget hlen
        cases i with
        | zero =>
          rw [List.getElem?_cons_zero] at hget
          injection hget with hget
          subst hget
          rw [List.length_cons] at hlen
          have hrec : submitChunks (l.drop k) k ≠ [] := by
            intro h0
            rw [h0] at hlen
            simp at hlen
          have hdrop : l.drop k ≠ [] := by
            intro h0
            exact hrec (by rw [h0]; rfl)
          have hkn : k < l.length := by
            by_contra hle
            push_neg at hle
            exact hdrop (List.drop_eq_nil_of_le hle)
          rw [List.length_take]
          omega
        | succ j =>
          rw [List.getElem?_cons_succ] at hget
          rw [List.length_cons] at hlen
          exact ih _ hlt _ rfl j c hget (by omega)
  exact fun l => H l.length l rfl

/-! ## Lemmas about the submission run -/

theorem postPayloads_nil : postPayloads [] = [] := rfl

theorem postPayloads_post (i : Nat) (r : PostReq) (t : List Ev) :
    postPayloads (.post i r :: t) = r.profiles :: postPayloads t := rfl

theorem postPayloads_recv (i s : Nat) (t : List Ev) :
    postPayloads (.recv i s :: t) = postPayloads t := rfl

theorem postPayloads_yielded (i : Nat) (s : String) (t : List Ev) :
    postPayloads (.yielded i s :: t) = postPayloads t := rfl

theorem postPayloads_slept (i s : Nat) (t : List Ev) :
    postPayloads (.slept i s :: t) = postPayloads t := rfl

/-- When the server accepts everything, exactly one POST is issued per chunk,
in order, and the run collects every response body with no error. -/
theorem runChunksFrom_ok (c : Client) (stub : Bool) (interval : Nat)
    (responder : Nat → HttpResponse)
    (hok : ∀ j, raiseForStatus (responder j).status = false) :
    ∀ (cs : List (List ProfileRecord)) (i₀ : Nat),
      postPayloads (runChunksFrom c stub interval responder i₀ cs).trace = cs ∧
      (runChunksFrom c stub interval responder i₀ cs).results =
        (List.range cs.length).map (fun j => (responder (i₀ + j)).content) ∧
      (runChunksFrom c stub interval responder i₀ cs).error = none := by
  intro cs
  induction cs with
  | nil => intro i₀; exact ⟨rfl, rfl, rfl⟩
  | cons ch rest ih =>
    intro i₀
    rw [runChunksFrom]
    simp only [hok i₀, if_false, Bool.false_eq_true]
    obtain ⟨h1, h2, h3⟩ := ih (i₀ + 1)
    refine ⟨?_, ?_, h3⟩
    · rw [postPayloads_post, postPayloads_recv, postPayloads_yielded,
        postPayloads_slept, h1]
      rfl
    · show (responder i₀).content :: _ = _
      rw [h2, List.length_cons, List.range_succ_eq_map, List.map_cons,
        Nat.add_zero, List.map_map]
      have hcomp : ((fun j => (responder (i₀ + j)).content) ∘ Nat.succ) =
          fun j => (responder (i₀ + 1 + j)).content := by
        funext j
        show (responder (i₀ + (j + 1))).content = (responder (i₀ + 1 + j)).content
        have ha : i₀ + (j + 1) = i₀ + 1 + j := by omega
        rw [ha]
      rw [hcomp]
      rfl

/-- When the first `i` responses are accepted and response `i` is a 4xx/5xx,
the run posts exactly chunks `0..i`, keeps the results of chunks `0..i-1`,
and ends with `HttpError` carrying the offending status. -/
theorem runChunksFrom_fail (c : Client) (stub : Bool) (interval : Nat)
    (responder : Nat → HttpResponse) :
    ∀ (cs : List (List ProfileRecord)) (i₀ i : Nat), i < cs.length →
      (∀ j, j < i → raiseForStatus (responder (i₀ + j)).status = false) →
      raiseForStatus (responder (i₀ + i)).status = true →
      (runChunksFrom c stub interval responder i₀ cs).error =
        some (.httpError (responder (i₀ + i)).status) ∧
      (runChunksFrom c stub interval responder i₀ cs).results =
        (List.range i).map (fun j => (responder (i₀ + j)).content) ∧
      postPayloads (runChunksFrom c stub interval responder i₀ cs).trace =
        cs.take (i + 1) := by
  intro cs
  induction cs with
  | nil =>
    intro i₀ i hi
    simp at hi
  | cons ch rest ih =>
    intro i₀ i hi hokpre hbad
    cases i with
    | zero =>
      rw [Nat.add_zero] at hbad
      rw [runChunksFrom]
      simp only [hbad, if_true]
      refine ⟨by rw [Nat.add_zero], rfl, ?_⟩
      rw [postPayloads_post, postPayloads_recv, postPayloads_nil]
      rfl
    | succ j =>
      have hok0 : raiseForStatus (responder i₀).status = false := by
        have := hokpre 0 (by omega)
        rwa [Nat.add_zero] at this
      rw [runChunksFrom]
      simp only [hok0, if_false, Bool.false_eq_true]
      rw [List.length_cons] at hi
      have hpre' : ∀ j', j' < j →
          raiseForStatus (responder (i₀ + 1 + j')).status = false := by
        intro j' hj'
        have := hokpre (j' + 1) (by omega)
        have harith : i₀ + (j' + 1) = i₀ + 1 + j' := by omega
        rwa [harith] at this
      have hbad' : raiseForStatus (responder (i₀ + 1 + j)).status = true := by
        have harith : i₀ + (j + 1) = i₀ + 1 + j := by omega
        rwa [harith] at hbad
      obtain ⟨h1, h2, h3⟩ := ih (i₀ + 1) j (by omega) hpre' hbad'
      have harith : i₀ + (j + 1) = i₀ + 1 + j := by omega
      refine ⟨?_, ?_, ?_⟩
      · show (runChunksFrom c stub interval responder (i₀ + 1) rest).error = _
        rw [harith]
        exact h1
      · show (responder i₀).content :: _ = _
        rw [h2, List.range_succ_eq_map, List.map_cons, Nat.add_zero, List.map_map]
        have hcomp : ((fun j' => (responder (i₀ + j')).content) ∘ Nat.succ) =
            fun j' => (responder (i₀ + 1 + j')).content := by
          funext j'
          show (responder (i₀ + (j' + 1))).content = (responder (i₀ + 1 + j')).content
          have ha : i₀ + (j' + 1) = i₀ + 1 + j' := by omega
          rw [ha]
        rw [hcomp]
        rfl
      · rw [postPayloads_post, postPayloads_recv, postPayloads_yielded,
          postPayloads_slept, h3]
        rfl

/-- Every POST of a run carries the client's headers dict. -/
theorem runChunksFrom_post_headers (c : Client) (stub : Bool) (interval : Nat)
    (responder : Nat → HttpResponse) :
    ∀ (cs : List (List ProfileRecord)) (i₀ i : Nat) (r : PostReq),
      Ev.post i r ∈ (runChunksFrom c stub interval responder i₀ cs).trace →
      r.headers = c.headers ∧ r.url = c.profile_url := by
  intro cs
  induction cs with
  | nil =>
    intro i₀ i r hmem
    simp [runChunksFrom] at hmem
  | cons ch rest ih =>
    intro i₀ i r hmem
    cases hbad : raiseForStatus (responder i₀).status with
    | true =>
      simp only [runChunksFrom, hbad, if_true, List.mem_cons,
        List.not_mem_nil, or_false] at hmem
      rcases hmem with heq | heq
      · injection heq with h1 h2
        subst h2
        exact ⟨rfl, rfl⟩
      · exact Ev.noConfusion heq
    | false =>
      simp only [runChunksFrom, hbad, Bool.false_eq_true, if_false,
        List.mem_cons] at hmem
      rcases hmem with heq | heq | heq | heq | hmem
      · injection heq with h1 h2
        subst h2
        exact ⟨rfl, rfl⟩
      · exact Ev.noConfusion heq
      · exact Ev.noConfusion heq
      · exact Ev.noConfusion heq
      · exact ih (i₀ + 1) i r hmem

/-- Sequential structure of a run: every POST carries an index at least the
starting one, and a POST for a later chunk `n` occurs strictly after the
response of chunk `n - 1` was received and its sleep elapsed: the trace
splits at chunk `n - 1`'s sleep event, with `recv (n-1)` before it and every
POST of chunk `n` after it. -/
theorem runChunksFrom_post_after_sleep (c : Client) (stub : Bool) (interval : Nat)
    (responder : Nat → HttpResponse) :
    ∀ (cs : List (List ProfileRecord)) (i₀ n : Nat) (r : PostReq),
      Ev.post n r ∈ (runChunksFrom c stub interval responder i₀ cs).trace →
      i₀ ≤ n ∧
      (i₀ < n → ∃ pre suf,
        (runChunksFrom c stub interval responder i₀ cs).trace
            = pre ++ Ev.slept (n - 1) interval :: suf ∧
        Ev.recv (n - 1) (responder (n - 1)).status ∈ pre ∧
        Ev.post n r ∈ suf ∧
        ∀ r', Ev.post n r' ∉ pre) := by
  intro cs
  induction cs with
  | nil =>
    intro i₀ n r hmem
    simp [runChunksFrom] at hmem
  | cons ch rest ih =>
    intro i₀ n r hmem
    cases hbad : raiseForStatus (responder i₀).status with
    | true =>
      simp only [runChunksFrom, hbad, if_true, List.mem_cons,
        List.not_mem_nil, or_false] at hmem
      rcases hmem with heq | heq
      · injection heq with h1 h2
        subst h1
        exact ⟨Nat.le_refl _, fun hlt => absurd hlt (Nat.lt_irrefl _)⟩
      · exact Ev.noConfusion heq
    | false =>
      have htrace : (runChunksFrom c stub interval responder i₀ (ch :: rest)).trace =
          Ev.post i₀ (mkPostReq c ch stub) :: Ev.recv i₀ (responder i₀).status ::
          Ev.yielded i₀ (responder i₀).content :: Ev.slept i₀ interval ::
          (runChunksFrom c stub interval responder (i₀ + 1) rest).trace := by
        simp only [runChunksFrom, hbad, Bool.false_eq_true, if_false]
      rw [htrace] at hmem
      simp only [List.mem_cons] at hmem
      rcases hmem with heq | heq | heq | heq | hmem
      · injection heq with h1 h2
        subst h1
        exact ⟨Nat.le_refl _, fun hlt => absurd hlt (Nat.lt_irrefl _)⟩
      · exact Ev.noConfusion heq
      · exact Ev.noConfusion heq
      · exact Ev.noConfusion heq
      · obtain ⟨hge, hdec⟩ := ih (i₀ + 1) n r hmem
        refine ⟨by omega, fun _ => ?_⟩
        by_cases hn : n = i₀ + 1
        · subst hn
          refine ⟨[Ev.post i₀ (mkPostReq c ch stub),
              Ev.recv i₀ (responder i₀).status,
              Ev.yielded i₀ (responder i₀).content],
            (runChunksFrom c stub interval responder (i₀ + 1) rest).trace,
            ?_, ?_, hmem, ?_⟩
          · rw [htrace]
            rfl
          · simp
          · intro r' hr'
            simp only [List.mem_cons, List.not_mem_nil, or_false] at hr'
            rcases hr' with h | h | h
            · injection h with h1 _
              omega
            · exact Ev.noConfusion h
            · exact Ev.noConfusion h
        · have hlt' : i₀ + 1 < n := by omega
          obtain ⟨pre', suf', ht', hrecv', hpost', hnopre'⟩ := hdec hlt'
          refine ⟨Ev.post i₀ (mkPostReq c ch stub) :: Ev.recv i₀ (responder i₀).status ::
              Ev.yielded i₀ (responder i₀).content :: Ev.slept i₀ interval :: pre',
            suf', ?_, ?_, hpost', ?_⟩
          · rw [htrace, ht']
            rfl
          · simp [hrecv']
          · intro r' hr'
            simp only [List.mem_cons] at hr'
            rcases hr' with h | h | h | h | h
            · injection h with h1 _
              omega
            · exact Ev.noConfusion h
            · exact Ev.noConfusion h
            · exact Ev.noConfusion h
            · exact hnopre' r' h

/-- Inversion of a successful `__init__`: the headers dict is exactly
`{'X-Auth': token}` and the client is authenticated. -/
theorem qpiInit_ok (app_url : String) (token username password : Option String)
    (authServer : String → String → AuthResponse) (cl : Client)
    (h : (qpiInit app_url token username password authServer).result = .ok cl) :
    cl.headers = [("X-Auth", cl.token)] ∧ cl.authenticated = true := by
  unfold qpiInit at h
  by_cases htok : token = none ∨ token = some ""
  · rw [if_pos htok] at h
    cases username with
    | none =>
      simp at h
    | some u =>
      cases password with
      | none =>
        simp at h
      | some p =>
        dsimp only at h
        cases hgt : get_token (authServer u p) with
        | ok t =>
          rw [hgt] at h
          injection h with h
          subst h
          exact ⟨rfl, rfl⟩
        | error e =>
          rw [hgt] at h
          exact Except.noConfusion h
  · rw [if_neg htok] at h
    injection h with h
    subst h
    exact ⟨rfl, rfl⟩

/-- If every row is skipped (no first column, or a first column that strips
to the empty string), the parsing loop leaves its accumulators untouched. -/
theorem parseIdentRowsAux_all_empty :
    ∀ (rows : List (List String)) (idents : List String)
      (labels : List (String × List String)),
      (∀ row ∈ rows, ∀ f, row.head? = some f → pyStrip f = "") →
      parseIdentRowsAux rows idents labels = ⟨idents, labels⟩ := by
  intro rows
  induction rows with
  | nil => intro idents labels _; rfl
  | cons row rest ih =>
    intro idents labels hrows
    rw [parseIdentRowsAux]
    cases hhead : row.head? with
    | none =>
      exact ih idents labels fun r hr => hrows r (List.mem_cons_of_mem _ hr)
    | some f =>
      have hf : pyStrip f = "" := hrows row (List.mem_cons_self _ _) f hhead
      dsimp only
      rw [if_pos hf]
      exact ih idents labels fun r hr => hrows r (List.mem_cons_of_mem _ hr)

/-- Identifiers collected by the parsing loop are never the empty string
(an identifier that strips to empty is dropped by the loop). -/
theorem parseIdentRowsAux_no_empty_ident :
    ∀ (rows : List (List String)) (idents : List String)
      (labels : List (String × List String)),
      (∀ u ∈ idents, u ≠ "") →
      ∀ u ∈ (parseIdentRowsAux rows idents labels).idents, u ≠ "" := by
  intro rows
  induction rows with
  | nil => intro idents labels hacc; exact hacc
  | cons row rest ih =>
    intro idents labels hacc
    rw [parseIdentRowsAux]
    cases row.head? with
    | none => exact ih idents labels hacc
    | some f =>
      dsimp only
      by_cases hf : pyStrip f = ""
      · rw [if_pos hf]
        exact ih idents labels hacc
      · rw [if_neg hf]
        apply ih
        intro u hu
        rcases List.mem_append.mp hu with hu | hu
        · exact hacc u hu
        · rw [List.mem_singleton.mp hu]
          exact hf

/-! ## The claims -/

/-- C1: for every list of profile records of length `n` and every
`chunk_size = k ≥ 1`, `submit_profiles` partitions the list into
`⌈n / k⌉` contiguous chunks starting at index 0, each of exactly `k` records
except possibly the last (shorter but nonempty), issues exactly one POST per
chunk in order (shown here for a run the server accepts), and concatenating
the chunks in order reproduces the original list exactly. -/
theorem submit_profiles_partitions_into_chunks (l : List ProfileRecord) (k : Nat)
    (hk : 1 ≤ k) :
    (submitChunks l k).length = (l.length + k - 1) / k ∧
    (submitChunks l k).flatten = l ∧
    (∀ c ∈ submitChunks l k, 0 < c.length ∧ c.length ≤ k) ∧
    (∀ i c, (submitChunks l k)[i]? = some c → i + 1 < (submitChunks l k).length →
      c.length = k) ∧
    (∀ (cl : Client) (stub : Bool) (interval : Nat) (responder : Nat → HttpResponse),
      cl.authenticated = true →
      (∀ j, raiseForStatus (responder j).status = false) →
      postPayloads (submitProfilesRun cl l stub k interval responder).trace
        = submitChunks l k) := by
  refine ⟨submitChunks_length l k hk, submitChunks_flatten k hk l,
    submitChunks_mem_length k hk l, submitChunks_full k hk l, ?_⟩
  intro cl stub interval responder hauth hok
  unfold submitProfilesRun
  rw [if_pos hauth]
  exact (runChunksFrom_ok cl stub interval responder hok (submitChunks l k) 0).1

/-- Witness for C1 at five records and `chunk_size = 2`. -/
theorem submit_profiles_partitions_into_chunks_witness :
    (submitChunks demoProfiles 2).length = (demoProfiles.length + 2 - 1) / 2 ∧
    (submitChunks demoProfiles 2).flatten = demoProfiles ∧
    (∀ c ∈ submitChunks demoProfiles 2, 0 < c.length ∧ c.length ≤ 2) ∧
    (∀ i c, (submitChunks demoProfiles 2)[i]? = some c →
      i + 1 < (submitChunks demoProfiles 2).length → c.length = 2) ∧
    (∀ (cl : Client) (stub : Bool) (interval : Nat) (responder : Nat → HttpResponse),
      cl.authenticated = true →
      (∀ j, raiseForStatus (responder j).status = false) →
      postPayloads (submitProfilesRun cl demoProfiles stub 2 interval responder).trace
        = submitChunks demoProfiles 2) :=
  submit_profiles_partitions_into_chunks demoProfiles 2 (by decide)

/-- C10: submitting an empty profile list performs zero POSTs, zero sleeps
(the trace is empty), yields no results and raises no error, for every
authenticated client, `chunk_size ≥ 1` and `interval`. -/
theorem submit_empty_profiles_noop (cl : Client) (stub : Bool) (k interval : Nat)
    (responder : Nat → HttpResponse) (hauth : cl.authenticated = true)
    (_hk : 1 ≤ k) :
    submitProfilesRun cl [] stub k interval responder = ⟨[], [], none⟩ := by
  unfold submitProfilesRun
  rw [if_pos hauth]
  rfl

/-- Witness for C10 with the demo client, `chunk_size = 3`, `interval = 5`. -/
theorem submit_empty_profiles_noop_witness :
    submitProfilesRun demoClient [] false 3 5 demoResponderOk = ⟨[], [], none⟩ :=
  submit_empty_profiles_noop demoClient false 3 5 demoResponderOk rfl (by decide)

/-- C2 fails on the code: in `submit_usernames(['a','b'], 'twitter',
labels={'b': ['x']})` the mapping assigns `['x']` to `'b'`, but the record
built for `'b'` carries no labels, because the loop reassigned the `labels`
dict to a list on the first iteration.  `submit_user_ids` has the identical
flaw, and when a later identifier collides with an already-selected label the
loop even raises a `TypeError` (list indexed with a str). -/
theorem submit_labels_mapping_bug :
    submitUsernamesProfiles ["a", "b"] "twitter" [("b", ["x"])]
      = .ok [{ username := some "a", site := "twitter", labels := [] },
             { username := some "b", site := "twitter", labels := [] }] ∧
    List.lookup "b" [("b", ["x"])] = some ["x"] ∧
    submitUserIdsProfiles ["a", "b"] "twitter" [("b", ["x"])]
      = .ok [{ upstream_id := some "a", site := "twitter", labels := [] },
             { upstream_id := some "b", site := "twitter", labels := [] }] ∧
    submitUsernamesProfiles ["a", "a"] "twitter" [("a", ["a"])]
      = .error .typeError :=
  ⟨rfl, rfl, rfl, rfl⟩

/-- C3 counterexample: a 304 response — not a 2xx — on the very first chunk
does not abort the run: no `HttpError` is raised and the second chunk is
still posted, because `raise_for_status` only raises for 4xx/5xx. -/
theorem submit_non2xx_not_fatal_counterexample :
    raiseForStatus 304 = false ∧
    ¬ (200 ≤ 304 ∧ 304 < 300) ∧
    (submitProfilesRun demoClient [demoProfile "a", demoProfile "b"] false 1 5
        (fun _ => ⟨304, "not modified"⟩)).error = none ∧
    postPayloads (submitProfilesRun demoClient [demoProfile "a", demoProfile "b"]
        false 1 5 (fun _ => ⟨304, "not modified"⟩)).trace
      = [[demoProfile "a"], [demoProfile "b"]] :=
  ⟨rfl, by decide, rfl, rfl⟩

/-- C3 (amended): if the POST for chunk `i` receives a response with a 4xx or
5xx status (the statuses `raise_for_status` raises for) while all earlier
chunks were accepted, the run fails with `HttpError` carrying that status
before chunk `i + 1` is sent: the posted chunks are exactly `0..i`, and the
results of the chunks before `i` remain available to the caller.  (Other
non-2xx statuses such as 304 do not abort; see the counterexample.) -/
theorem submit_abort_on_4xx5xx (cl : Client) (profiles : List ProfileRecord)
    (stub : Bool) (k interval : Nat) (responder : Nat → HttpResponse) (i : Nat)
    (hauth : cl.authenticated = true)
    (hi : i < (submitChunks profiles k).length)
    (hok : ∀ j, j < i → raiseForStatus (responder j).status = false)
    (hbad : raiseForStatus (responder i).status = true) :
    (submitProfilesRun cl profiles stub k interval responder).error
        = some (.httpError (responder i).status) ∧
    (submitProfilesRun cl profiles stub k interval responder).results
        = (List.range i).map (fun j => (responder j).content) ∧
    postPayloads (submitProfilesRun cl profiles stub k interval responder).trace
        = (submitChunks profiles k).take (i + 1) := by
  unfold submitProfilesRun
  rw [if_pos hauth]
  have h := runChunksFrom_fail cl stub interval responder (submitChunks profiles k)
    0 i hi (fun j hj => by rw [Nat.zero_add]; exact hok j hj)
    (by rw [Nat.zero_add]; exact hbad)
  simpa only [Nat.zero_add] using h

/-- Witness for C3 (amended): three singleton chunks, the server rejects the
second one with a 404; only chunks 0 and 1 are posted and the result of
chunk 0 is retained. -/
theorem submit_abort_on_4xx5xx_witness :
    (submitProfilesRun demoClient demoProfiles false 2 5
        (fun j => if j = 1 then ⟨404, "not found"⟩ else ⟨200, "ok"⟩)).error
      = some (.httpError (if (1:Nat) = 1 then (⟨404, "not found"⟩ : HttpResponse)
          else ⟨200, "ok"⟩).status) ∧
    (submitProfilesRun demoClient demoProfiles false 2 5
        (fun j => if j = 1 then ⟨404, "not found"⟩ else ⟨200, "ok"⟩)).results
      = (List.range 1).map (fun j =>
          (if j = 1 then (⟨404, "not found"⟩ : HttpResponse) else ⟨200, "ok"⟩).content) ∧
    postPayloads (submitProfilesRun demoClient demoProfiles false 2 5
        (fun j => if j = 1 then ⟨404, "not found"⟩ else ⟨200, "ok"⟩)).trace
      = (submitChunks demoProfiles 2).take 2 :=
  submit_abort_on_4xx5xx demoClient demoProfiles false 2 5
    (fun j => if j = 1 then ⟨404, "not found"⟩ else ⟨200, "ok"⟩) 1
    rfl (by decide) (by decide) (by decide)

/-- C6: during a chunked submission, a POST for chunk `i + 1` occurs only
strictly after chunk `i`'s response was received and chunk `i`'s sleep of
`interval` seconds elapsed: the trace splits at chunk `i`'s sleep event,
with `recv i` before the split and every POST of chunk `i + 1` after it.
Submission is a single sequential trace, so no two requests are ever in
flight concurrently. -/
theorem submit_chunks_sequential (cl : Client) (profiles : List ProfileRecord)
    (stub : Bool) (k interval : Nat) (responder : Nat → HttpResponse)
    (i : Nat) (r : PostReq)
    (hauth : cl.authenticated = true)
    (hmem : Ev.post (i + 1) r
      ∈ (submitProfilesRun cl profiles stub k interval responder).trace) :
    ∃ pre suf,
      (submitProfilesRun cl profiles stub k interval responder).trace
        = pre ++ Ev.slept i interval :: suf ∧
      Ev.recv i (responder i).status ∈ pre ∧
      Ev.post (i + 1) r ∈ suf ∧
      ∀ r', Ev.post (i + 1) r' ∉ pre := by
  unfold submitProfilesRun at hmem ⊢
  rw [if_pos hauth] at hmem ⊢
  have h := runChunksFrom_post_after_sleep cl stub interval responder
    (submitChunks profiles k) 0 (i + 1) r hmem
  have hdec := h.2 (by omega)
  simpa only [Nat.add_sub_cancel] using hdec

/-- Witness for C6: two singleton chunks accepted with status 200; the POST
of chunk 1 happens after chunk 0's response and sleep. -/
theorem submit_chunks_sequential_witness :
    ∃ pre suf,
      (submitProfilesRun demoClient [demoProfile "a", demoProfile "b"]
          false 1 5 (fun _ => ⟨200, "ok"⟩)).trace
        = pre ++ Ev.slept 0 5 :: suf ∧
      Ev.recv 0 (200 : Nat) ∈ pre ∧
      Ev.post 1 (mkPostReq demoClient [demoProfile "b"] false) ∈ suf ∧
      ∀ r', Ev.post 1 r' ∉ pre := by
  have h := submit_chunks_sequential demoClient [demoProfile "a", demoProfile "b"]
    false 1 5 (fun _ => ⟨200, "ok"⟩) 0
    (mkPostReq demoClient [demoProfile "b"] false) rfl (by decide)
  exact h

/-- C4: for a 2xx authentication response, `get_token` returns the value of
the `token` field of the JSON body when it is present, and fails with the
authentication error (`QPIError('Authentication failed.')`) exactly when the
field is absent. -/
theorem get_token_extracts_token_field (resp : AuthResponse)
    (h2xx : 200 ≤ resp.status ∧ resp.status < 300) :
    (∀ t, resp.body.lookup "token" = some t → get_token resp = .ok t) ∧
    (resp.body.lookup "token" = none →
      get_token resp = .error (.qpiError "Authentication failed.")) ∧
    (get_token resp = .error (.qpiError "Authentication failed.")
      ↔ resp.body.lookup "token" = none) := by
  have hraise : raiseForStatus resp.status = false := by
    unfold raiseForStatus
    have h4 : ¬ (400 ≤ resp.status) := by omega
    simp [h4]
  unfold get_token
  simp only [hraise, Bool.false_eq_true, if_false]
  cases hlook : resp.body.lookup "token" with
  | none => simp
  | some t => simp

/-- Witness for C4: `{"token": "abc123"}` yields `"abc123"`; `{}` yields the
authentication error. -/
theorem get_token_extracts_token_field_witness :
    get_token ⟨200, [("token", "abc123")]⟩ = .ok "abc123" ∧
    get_token ⟨200, []⟩ = .error (.qpiError "Authentication failed.") :=
  ⟨(get_token_extracts_token_field ⟨200, [("token", "abc123")]⟩ (by decide)).1
      "abc123" rfl,
    (get_token_extracts_token_field ⟨200, []⟩ (by decide)).2.1 rfl⟩

/-- C5: the query string built by `search` contains exactly the present
parameters: `query`, `rpp` and `page` always, and each of `type`, `facets`,
`sort` precisely when the corresponding argument was supplied — an absent
optional parameter is omitted entirely.  In particular
`search(query='darpa', type_='profile')` produces
`query=darpa&rpp=100&page=1&type=profile`, whose `&`-separated components
include `query=darpa` and `type=profile` and contain no `facets` or `sort`
parameter. -/
theorem search_includes_exactly_present_params (query : String)
    (type_ facets sort : Option String) (rpp page : Nat) :
    (("query", query) ∈ searchParams query type_ facets sort rpp page) ∧
    (("rpp", toString rpp) ∈ searchParams query type_ facets sort rpp page) ∧
    (("page", toString page) ∈ searchParams query type_ facets sort rpp page) ∧
    (∀ v, ("type", v) ∈ searchParams query type_ facets sort rpp page
      ↔ type_ = some v) ∧
    (∀ v, ("facets", v) ∈ searchParams query type_ facets sort rpp page
      ↔ facets = some v) ∧
    (∀ v, ("sort", v) ∈ searchParams query type_ facets sort rpp page
      ↔ sort = some v) ∧
    searchParamStr "darpa" (some "profile") none none 100 1
      = "query=darpa&rpp=100&page=1&type=profile" ∧
    "query=darpa" ∈ queryComponents (searchParamStr "darpa" (some "profile") none none 100 1) ∧
    "type=profile" ∈ queryComponents (searchParamStr "darpa" (some "profile") none none 100 1) ∧
    (∀ s ∈ queryComponents (searchParamStr "darpa" (some "profile") none none 100 1),
      "facets".data.isPrefixOf s.data = false ∧ "sort".data.isPrefixOf s.data = false) := by
  refine ⟨?_, ?_, ?_, ?_, ?_, ?_, rfl, by decide, by decide, by decide⟩
  · simp [searchParams]
  · simp [searchParams]
  · simp [searchParams]
  · intro v
    cases type_ <;> cases facets <;> cases sort <;>
      simp [searchParams, eq_comm]
  · intro v
    cases type_ <;> cases facets <;> cases sort <;>
      simp [searchParams, eq_comm]
  · intro v
    cases type_ <;> cases facets <;> cases sort <;>
      simp [searchParams, eq_comm]

/-- C7: when every CSV row of the input either has no columns or a first
column that strips to the empty string (a zero-row file included), both
CLI submit commands report the empty-file condition and exit cleanly with
zero POSTs issued; and in general an identifier that strips to the empty
string is dropped, so it never produces a profile record. -/
theorem empty_input_reports_empty_file (cl : Client) (rows : List (List String))
    (site : String) (stub : Bool) (chunk interval : Nat)
    (responder : Nat → HttpResponse)
    (hempty : ∀ row ∈ rows, ∀ f, row.head? = some f → pyStrip f = "") :
    submitNamesPipeline cl rows site stub chunk interval responder = .emptyFile ∧
    submitIdsPipeline cl rows site stub chunk interval responder = .emptyFile ∧
    pipelinePostCount (submitNamesPipeline cl rows site stub chunk interval responder) = 0 ∧
    pipelinePostCount (submitIdsPipeline cl rows site stub chunk interval responder) = 0 ∧
    (∀ (rows' : List (List String)), ∀ u ∈ (parseIdentRows rows').idents, u ≠ "") := by
  have hparse : parseIdentRows rows = ⟨[], []⟩ :=
    parseIdentRowsAux_all_empty rows [] [] hempty
  have hnames : submitNamesPipeline cl rows site stub chunk interval responder
      = .emptyFile := by
    unfold submitNamesPipeline
    rw [hparse]
    rfl
  have hids : submitIdsPipeline cl rows site stub chunk interval responder
      = .emptyFile := by
    unfold submitIdsPipeline
    rw [hparse]
    rfl
  refine ⟨hnames, hids, ?_, ?_, ?_⟩
  · rw [hnames]; rfl
  · rw [hids]; rfl
  · intro rows' u hu
    exact parseIdentRowsAux_no_empty_ident rows' [] [] (by intro u hu'; cases hu') u hu

/-- Witness for C7: a file whose rows are an empty line, an empty first
column, and whitespace-only first columns. -/
theorem empty_input_reports_empty_file_witness :
    submitNamesPipeline demoClient [[], [""], ["  ", "a,b"], ["", "x"]]
        "twitter" false 1 5 demoResponderOk = .emptyFile ∧
    submitIdsPipeline demoClient [[], [""], ["  ", "a,b"], ["", "x"]]
        "twitter" false 1 5 demoResponderOk = .emptyFile ∧
    pipelinePostCount (submitNamesPipeline demoClient [[], [""], ["  ", "a,b"], ["", "x"]]
        "twitter" false 1 5 demoResponderOk) = 0 ∧
    pipelinePostCount (submitIdsPipeline demoClient [[], [""], ["  ", "a,b"], ["", "x"]]
        "twitter" false 1 5 demoResponderOk) = 0 ∧
    (∀ (rows' : List (List String)), ∀ u ∈ (parseIdentRows rows').idents, u ≠ "") :=
  empty_input_reports_empty_file demoClient [[], [""], ["  ", "a,b"], ["", "x"]]
    "twitter" false 1 5 demoResponderOk (by decide)

/-- C8: a successfully constructed client has `X-Auth: token` as its one
header, and every request any operation issues — each submission POST, the
`get` GET, the `search` GET and the SSE notification stream — carries exactly
that headers dict, which no operation changes. -/
theorem all_requests_carry_x_auth (app_url : String)
    (token username password : Option String)
    (authServer : String → String → AuthResponse) (cl : Client)
    (hinit : (qpiInit app_url token username password authServer).result = .ok cl) :
    cl.headers = [("X-Auth", cl.token)] ∧
    (∀ (profiles : List ProfileRecord) (stub : Bool) (k interval : Nat)
        (responder : Nat → HttpResponse) (i : Nat) (r : PostReq),
      Ev.post i r ∈ (submitProfilesRun cl profiles stub k interval responder).trace →
      r.headers = [("X-Auth", cl.token)]) ∧
    (∀ resource page rpp req, getRequest cl resource page rpp = .ok req →
      req.headers = [("X-Auth", cl.token)]) ∧
    (∀ query type_ facets sort rpp page req,
      searchRequest cl query type_ facets sort rpp page = .ok req →
      req.headers = [("X-Auth", cl.token)]) ∧
    (∀ req, notificationRequest cl = .ok req →
      req.headers = [("X-Auth", cl.token)]) := by
  obtain ⟨hh, hauth⟩ := qpiInit_ok app_url token username password authServer cl hinit
  refine ⟨hh, ?_, ?_, ?_, ?_⟩
  · intro profiles stub k interval responder i r hmem
    unfold submitProfilesRun at hmem
    rw [if_pos hauth] at hmem
    have := runChunksFrom_post_headers cl stub interval responder
      (submitChunks profiles k) 0 i r hmem
    rw [this.1, hh]
  · intro resource page rpp req hreq
    unfold getRequest at hreq
    rw [if_pos hauth] at hreq
    injection hreq with hreq
    rw [← hreq, ← hh]
  · intro query type_ facets sort rpp page req hreq
    unfold searchRequest at hreq
    rw [if_pos hauth] at hreq
    injection hreq with hreq
    rw [← hreq, ← hh]
  · intro req hreq
    unfold notificationRequest at hreq
    rw [if_pos hauth] at hreq
    injection hreq with hreq
    rw [← hreq, ← hh]

/-- Witness for C8 with a directly supplied token. -/
theorem all_requests_carry_x_auth_witness :
    demoClient.headers = [("X-Auth", demoClient.token)] ∧
    (∀ (profiles : List ProfileRecord) (stub : Bool) (k interval : Nat)
        (responder : Nat → HttpResponse) (i : Nat) (r : PostReq),
      Ev.post i r ∈ (submitProfilesRun demoClient profiles stub k interval responder).trace →
      r.headers = [("X-Auth", demoClient.token)]) ∧
    (∀ resource page rpp req, getRequest demoClient resource page rpp = .ok req →
      req.headers = [("X-Auth", demoClient.token)]) ∧
    (∀ query type_ facets sort rpp page req,
      searchRequest demoClient query type_ facets sort rpp page = .ok req →
      req.headers = [("X-Auth", demoClient.token)]) ∧
    (∀ req, notificationRequest demoClient = .ok req →
      req.headers = [("X-Auth", demoClient.token)]) :=
  all_requests_carry_x_auth "https://example.com" (some "tok") none none
    (fun _ _ => ⟨200, []⟩) demoClient rfl

/-- C9: constructing a client with `token` equal to `None` or `''` while
`username` or `password` is `None` fails with `QPIError` and performs no
network call; and an empty-string token triggers exactly the same credential
exchange as an absent token. -/
theorem init_without_credentials_fails (app_url : String)
    (token username password : Option String)
    (authServer : String → String → AuthResponse)
    (htok : token = none ∨ token = some "")
    (hcred : username = none ∨ password = none) :
    (qpiInit app_url token username password authServer).networkCalls = 0 ∧
    (qpiInit app_url token username password authServer).result
      = .error (.qpiError "Supply `token`, or `username` and `password`") ∧
    (∀ u p, qpiInit app_url (some "") (some u) (some p) authServer
        = qpiInit app_url none (some u) (some p) authServer) := by
  have h : qpiInit app_url token username password authServer
      = ⟨0, .error (.qpiError "Supply `token`, or `username` and `password`")⟩ := by
    unfold qpiInit
    rw [if_pos htok]
    rcases hcred with h | h
    · subst h
      cases password with
      | none => rfl
      | some p => rfl
    · subst h
      cases username with
      | none => rfl
      | some u => rfl
  refine ⟨by rw [h], by rw [h], ?_⟩
  intro u p
  unfold qpiInit
  rw [if_pos (Or.inr rfl), if_pos (Or.inl rfl)]

/-- Witness for C9: no token and no username. -/
theorem init_without_credentials_fails_witness :
    (qpiInit "https://example.com" none none (some "pw")
        (fun _ _ => ⟨200, []⟩)).networkCalls = 0 ∧
    (qpiInit "https://example.com" none none (some "pw")
        (fun _ _ => ⟨200, []⟩)).result
      = .error (.qpiError "Supply `token`, or `username` and `password`") ∧
    (∀ u p, qpiInit "https://example.com" (some "") (some u) (some p)
          (fun _ _ => ⟨200, []⟩)
        = qpiInit "https://example.com" none (some u) (some p)
          (fun _ _ => ⟨200, []⟩)) :=
  init_without_credentials_fails "https://example.com" none none (some "pw")
    (fun _ _ => ⟨200, []⟩) (Or.inl rfl) (Or.inl rfl)

end QuickpinApi

